import Mathlib

/-!
Verification of the quiz state/scoring engine of the unscarred-complete-site
repository, shallowly embedded in Lean 4.

The embedding follows the TypeScript sources:
  * src/components/quiz/types.ts            (data model)
  * src/unnamed/part_001                    (validation, conditional logic, progress)
  * src/unnamed/part_000                    (ScoringEngine and preset configs)
  * src/components/quiz/QuizEngine.ts       (engine state machine)

Modeling conventions:
  * JavaScript numbers are modeled as `Int` (the claims and the quiz data only
    involve integral values); percentage values, which come from a division,
    are modeled as `Rat`.
  * `undefined` and `null` are explicit constructors of the runtime value type
    `JVal`; an absent answer reads as `JVal.undefV`, exactly as `answer?.value`
    does in the source.
  * JavaScript strict equality (`===`) on two arrays is reference equality;
    values reaching a comparison from distinct literals are never identical
    references, so array-vs-array strict equality is modeled as `false`.
  * `Number(string)` / `parseFloat(String(v))` coercions are modeled for the
    integer-literal strings the quiz data uses (`jsStrToNum`); a regular
    expression test (`validationPattern`) is modeled as an abstract predicate
    `String → Bool`.
  * Wall-clock reads (`new Date()`) are modeled by threading an explicit
    clock argument `now : Nat`; a function of the source that reads the clock
    becomes a Lean function with one extra `now` parameter.
  * JavaScript object maps with string keys (answer maps, score maps) are
    modeled as association lists; key assignment updates in place (keeping
    the original insertion position) or appends, as `upsertAnswer` /
    `setScore` / `addScore` below, which matches `Object.entries` iteration
    order of the source.
-/

/-- Runtime JavaScript values that can reach the engine as answer values
(TypeScript type `unknown` at the `submitAnswer` boundary). -/
inductive JVal where
  | undefV : JVal
  | jnull : JVal
  | str (s : String) : JVal
  | num (n : Int) : JVal
  | strs (l : List String) : JVal
  | nums (l : List Int) : JVal
deriving DecidableEq

/-- The TypeScript type `string | number` (option values). -/
inductive PrimValue where
  | str (s : String) : PrimValue
  | num (n : Int) : PrimValue
deriving DecidableEq

/-- The TypeScript type `string | number | string[] | number[]` used for
`Condition.value` (types.ts line 380): it cannot be `undefined` or `null`. -/
inductive CondValue where
  | str (s : String) : CondValue
  | num (n : Int) : CondValue
  | strs (l : List String) : CondValue
  | nums (l : List Int) : CondValue
deriving DecidableEq

/-- View a condition value as a runtime value. -/
def CondValue.toJVal : CondValue → JVal
  | .str s => .str s
  | .num n => .num n
  | .strs l => .strs l
  | .nums l => .nums l

/-- Condition operators (types.ts `ConditionOperator`). -/
inductive CondOperator where
  | equals | notEquals | containsOp | notContainsOp
  | greaterThan | lessThan | inRange
deriving DecidableEq

/-- A single condition (types.ts `Condition`). -/
structure Condition where
  questionId : String
  operator : CondOperator
  value : CondValue
deriving DecidableEq

/-- Logical connective of a conditional-display expression. -/
inductive LogicOp where
  | andOp | orOp
deriving DecidableEq

/-- Conditional-display logic (types.ts `ConditionalLogic`). -/
structure ConditionalLogic where
  conditions : List Condition
  operator : LogicOp
deriving DecidableEq

/-- Question variants (types.ts `QuestionType`). -/
inductive QType where
  | singleChoice | multiChoice | binary | likert | slider
  | scenario | matrix | ranking | textInput | imageChoice
deriving DecidableEq

/-- A per-category score contribution (types.ts `ScoreContribution`). -/
structure ScoreContribution where
  category : String
  value : Int
  weight : Option Int := none
deriving DecidableEq

/-- A choice option (types.ts `ChoiceOption`); `scores := []` models an
absent `scores` array (an empty array contributes nothing either way). -/
structure ChoiceOption where
  letter : Option String := none
  text : String := ""
  value : Option PrimValue := none
  scores : List ScoreContribution := []
  mask : Option String := none
  war : Option String := none
  archetype : Option String := none
deriving DecidableEq

/-- A question, modeling the source tagged union as one flat record: each
variant reads only its own fields, mirroring the `question as X` casts in
the source.  `pattern` models `new RegExp(validationPattern).test`. -/
structure Question where
  id : String
  qtype : QType
  text : String := ""
  label : Option String := none
  required : Option Bool := none
  conditionalDisplay : Option ConditionalLogic := none
  options : List ChoiceOption := []
  minSelections : Option Nat := none
  maxSelections : Option Nat := none
  minLength : Option Nat := none
  maxLength : Option Nat := none
  pattern : Option (String → Bool) := none
  sliderMin : Int := 0
  sliderMax : Int := 0
  scalePoints : Int := 0
  reverseCoded : Bool := false
  scoringCategory : Option String := none
  positiveValue : Option Int := none
  positiveLabel : Option String := none
  negativeLabel : Option String := none

/-- A stored answer (types.ts `QuizAnswer`); the timestamp is a clock value. -/
structure QuizAnswer where
  questionId : String
  value : JVal
  timestamp : Nat
deriving DecidableEq

/-- The mutable quiz state (types.ts `QuizState`); the answer map is an
association list keyed by question id in insertion order. -/
structure QuizState where
  quizId : String
  currentQuestionIndex : Nat
  answers : List QuizAnswer
  startedAt : Nat := 0
  completedAt : Option Nat := none
  metadata : List (String × String) := []
deriving DecidableEq

/-- Validation error codes (types.ts `ValidationErrorCode`). -/
inductive ValidationErrorCode where
  | requiredCode | minLengthCode | maxLengthCode | patternCode
  | minSelectionsCode | maxSelectionsCode | outOfRangeCode | invalidFormatCode
deriving DecidableEq

/-- A validation error record (types.ts `ValidationError`). -/
structure ValidationError where
  questionId : String
  message : String
  code : ValidationErrorCode
deriving DecidableEq

/-- A validation result (types.ts `ValidationResult`). -/
structure ValidationResult where
  isValid : Bool
  errors : List ValidationError
deriving DecidableEq

-- ============================================================================
-- Validation utilities (src/unnamed/part_001)
-- ============================================================================

/-- Structural whitespace trim (JavaScript `String.prototype.trim`),
implemented over the character list so it evaluates in the kernel. -/
def trimStr (s : String) : String :=
  ⟨((s.data.dropWhile (fun c => c.isWhitespace)).reverse.dropWhile
      (fun c => c.isWhitespace)).reverse⟩

/-- Numeric value of a decimal digit character. -/
def digitVal (c : Char) : Option Nat :=
  if c.isDigit then some (c.toNat - 48) else none

/-- Parse a digit string into a natural number; `none` on a non-digit. -/
def digitsToNatAux : List Char → Nat → Option Nat
  | [], acc => some acc
  | c :: cs, acc =>
      match digitVal c with
      | some d => digitsToNatAux cs (acc * 10 + d)
      | none => none

/-- Parse an optionally negated decimal integer literal; `none` (NaN) on
anything else.  This models the JavaScript numeric string coercions for the
integer literals the quiz data uses. -/
def strToInt : String → Option Int
  | ⟨[]⟩ => none
  | ⟨c :: cs⟩ =>
      if c = '-' then
        match cs, digitsToNatAux cs 0 with
        | _ :: _, some n => some (-(n : Int))
        | _, _ => none
      else
        match digitsToNatAux (c :: cs) 0 with
        | some n => some (n : Int)
        | none => none

/-- `isEmpty` (part_001 lines 296-301): undefined/null, blank-after-trim
string, or empty array. -/
def isEmpty : JVal → Bool
  | .undefV => true
  | .jnull => true
  | .str s => trimStr s == ""
  | .num _ => false
  | .strs l => l.isEmpty
  | .nums l => l.isEmpty

/-- JavaScript `String(v)` coercion for the runtime values of the model. -/
def jsStr : JVal → String
  | .undefV => "undefined"
  | .jnull => "null"
  | .str s => s
  | .num n => toString n
  | .strs l => String.intercalate "," l
  | .nums l => String.intercalate "," (l.map toString)

/-- JavaScript `Number(string)` coercion restricted to the integer literals
the quiz data uses: blank strings coerce to 0, integer literals parse,
everything else is NaN (`none`). -/
def jsStrToNum (s : String) : Option Int :=
  if trimStr s == "" then some 0 else strToInt (trimStr s)

/-- JavaScript `Number(v)` coercion; `none` is NaN.  Arrays coerce through
their string form, so empty and one-element arrays coerce like the element. -/
def jsNum : JVal → Option Int
  | .undefV => none
  | .jnull => some 0
  | .str s => jsStrToNum s
  | .num n => some n
  | .strs [] => some 0
  | .strs [s] => jsStrToNum s
  | .strs (_ :: _ :: _) => none
  | .nums [] => some 0
  | .nums [n] => some n
  | .nums (_ :: _ :: _) => none

/-- `parseFloat(String(value))` as used by the slider/likert validators:
`NaN` is `none`. -/
def jsParseNum : JVal → Option Int
  | .num n => some n
  | v => strToInt (trimStr (jsStr v))

/-- Substring test on character lists (JavaScript `String.prototype.includes`). -/
def charsContain (hay needle : List Char) : Bool :=
  match hay with
  | [] => needle.isEmpty
  | _ :: t => needle.isPrefixOf hay || charsContain t needle

/-- `a.includes(b)` on strings. -/
def strIncludes (hay needle : String) : Bool :=
  charsContain hay.data needle.data

/-- JavaScript strict equality between a runtime answer value and a condition
value.  `undefined`/`null` equal no condition value; arrays compare by
reference, hence `false` between values of distinct provenance. -/
def strictEq : JVal → CondValue → Bool
  | .str s, .str t => s == t
  | .num n, .num m => n == m
  | _, _ => false

/-- Look up the stored answer for a question id (`state.answers[id]`). -/
def lookupAnswer (st : QuizState) (qid : String) : Option QuizAnswer :=
  st.answers.find? (fun a => a.questionId == qid)

/-- `state.answers[id]?.value`: an absent answer reads as `undefined`. -/
def answerValueOf (st : QuizState) (qid : String) : JVal :=
  match lookupAnswer st qid with
  | some a => a.value
  | none => .undefV

/-- The in-range check (`num >= value[0] && num <= value[1]`), for a possibly
NaN coerced answer (`none`).  String bounds coerce through `Number`. -/
def inRangeCheck (answerNum : Option Int) (cv : CondValue) : Bool :=
  match cv, answerNum with
  | .nums [lo, hi], some n => decide (lo ≤ n) && decide (n ≤ hi)
  | .strs [a, b], some n =>
      match jsStrToNum a, jsStrToNum b with
      | some lo, some hi => decide (lo ≤ n) && decide (n ≤ hi)
      | _, _ => false
  | _, _ => false

/-- `evaluateCondition` (part_001 lines 248-287). -/
def evaluateCondition (c : Condition) (st : QuizState) : Bool :=
  let answerValue := answerValueOf st c.questionId
  match c.operator with
  | .equals => strictEq answerValue c.value
  | .notEquals => !strictEq answerValue c.value
  | .containsOp =>
      match answerValue with
      | .strs l => match c.value with | .str t => l.contains t | _ => false
      | .nums l => match c.value with | .num m => l.contains m | _ => false
      | v => strIncludes (jsStr v) (jsStr c.value.toJVal)
  | .notContainsOp =>
      !(match answerValue with
        | .strs l => match c.value with | .str t => l.contains t | _ => false
        | .nums l => match c.value with | .num m => l.contains m | _ => false
        | v => strIncludes (jsStr v) (jsStr c.value.toJVal))
  | .greaterThan =>
      match jsNum answerValue, jsNum c.value.toJVal with
      | some a, some b => decide (b < a)
      | _, _ => false
  | .lessThan =>
      match jsNum answerValue, jsNum c.value.toJVal with
      | some a, some b => decide (a < b)
      | _, _ => false
  | .inRange => inRangeCheck (jsNum answerValue) c.value

/-- `evaluateConditions` (part_001 lines 238-246): AND is `every`, OR is
`some` over the per-condition results. -/
def evaluateConditions (logic : ConditionalLogic) (st : QuizState) : Bool :=
  let results := logic.conditions.map (fun c => evaluateCondition c st)
  match logic.operator with
  | .andOp => results.all (fun b => b)
  | .orOp => results.any (fun b => b)

/-- `question.required !== false`: absent defaults to required. -/
def isRequired (q : Question) : Bool :=
  q.required != some false

/-- A question is visible when it has no `conditionalDisplay` or its logic
evaluates true (the filter used by `calculateProgress` and the engine). -/
def visibleQn (q : Question) (st : QuizState) : Bool :=
  match q.conditionalDisplay with
  | none => true
  | some logic => evaluateConditions logic st

/-- `validateMultiChoice` (part_001 lines 135-156); a zero bound is falsy in
the source, so it disables the check. -/
def validateMultiChoice (q : Question) (v : JVal) : List ValidationError :=
  let selections : List JVal :=
    match v with
    | .strs l => l.map JVal.str
    | .nums l => l.map JVal.num
    | _ => []
  (match q.minSelections with
   | some m =>
       if m != 0 && selections.length < m then
         [⟨q.id, "Please select at least " ++ toString m ++ " option" ++
            (if 1 < m then "s" else ""), .minSelectionsCode⟩]
       else []
   | none => []) ++
  (match q.maxSelections with
   | some m =>
       if m != 0 && m < selections.length then
         [⟨q.id, "Please select no more than " ++ toString m ++ " option" ++
            (if 1 < m then "s" else ""), .maxSelectionsCode⟩]
       else []
   | none => [])

/-- `validateTextInput` (part_001 lines 158-190); `String(value || "")`. -/
def validateTextInput (q : Question) (v : JVal) : List ValidationError :=
  let text := match v with | .undefV => "" | .jnull => "" | w => jsStr w
  (match q.minLength with
   | some m =>
       if m != 0 && text.length < m then
         [⟨q.id, "Please enter at least " ++ toString m ++ " characters", .minLengthCode⟩]
       else []
   | none => []) ++
  (match q.maxLength with
   | some m =>
       if m != 0 && m < text.length then
         [⟨q.id, "Please enter no more than " ++ toString m ++ " characters", .maxLengthCode⟩]
       else []
   | none => []) ++
  (match q.pattern with
   | some test =>
       if test text then [] else [⟨q.id, "Please enter a valid format", .patternCode⟩]
   | none => [])

/-- `validateSlider` (part_001 lines 192-214). -/
def validateSlider (q : Question) (v : JVal) : List ValidationError :=
  match jsParseNum v with
  | none => [⟨q.id, "Please select a value", .invalidFormatCode⟩]
  | some n =>
      if n < q.sliderMin || q.sliderMax < n then
        [⟨q.id, "Please select a value between " ++ toString q.sliderMin ++
           " and " ++ toString q.sliderMax, .outOfRangeCode⟩]
      else []

/-- `validateLikert` (part_001 lines 216-229). -/
def validateLikert (q : Question) (v : JVal) : List ValidationError :=
  match jsParseNum v with
  | none => [⟨q.id, "Please select a rating", .invalidFormatCode⟩]
  | some _ => []

/-- `validateAnswer` (part_001 lines 26-67). -/
def validateAnswer (q : Question) (v : JVal) : ValidationResult :=
  if isRequired q && isEmpty v then
    ⟨false, [⟨q.id, "This question requires an answer", .requiredCode⟩]⟩
  else if isEmpty v then
    ⟨true, []⟩
  else
    let errors :=
      match q.qtype with
      | .multiChoice => validateMultiChoice q v
      | .textInput => validateTextInput q v
      | .slider => validateSlider q v
      | .likert => validateLikert q v
      | _ => []
    ⟨errors.isEmpty, errors⟩

/-- `isQuizComplete` (part_001 lines 98-113). -/
def isQuizComplete (questions : List Question) (st : QuizState) : Bool :=
  questions.all (fun q =>
    if q.conditionalDisplay.isSome && !visibleQn q st then true
    else if isRequired q then !isEmpty (answerValueOf st q.id)
    else true)

/-- `getUnansweredQuestions` (part_001 lines 118-129). -/
def getUnansweredQuestions (questions : List Question) (st : QuizState) : List Question :=
  questions.filter (fun q =>
    if q.conditionalDisplay.isSome && !visibleQn q st then false
    else if q.required == some false then false
    else isEmpty (answerValueOf st q.id))

/-- The list of currently visible questions (the filter of
`calculateProgress`, part_001 lines 399-402). -/
def visibleList (questions : List Question) (st : QuizState) : List Question :=
  questions.filter (fun q => visibleQn q st)

/-- `Math.round` on an exact rational: round half toward positive infinity. -/
def jsRound (q : Rat) : Int :=
  Rat.floor (q + 1 / 2)

/-- `calculateProgress` (part_001 lines 398-412). -/
def calculateProgress (questions : List Question) (st : QuizState) : Int :=
  let visible := visibleList questions st
  if visible.length = 0 then 100
  else
    let answered := visible.filter (fun q => !isEmpty (answerValueOf st q.id))
    jsRound ((answered.length * 100 : Int) / (visible.length : Rat))

-- ============================================================================
-- Scoring engine (src/unnamed/part_000)
-- ============================================================================

/-- A score threshold (types.ts `ScoreThreshold`). -/
structure ScoreThreshold where
  min : Int
  max : Int
  level : String
deriving DecidableEq

/-- A scoring category (types.ts `ScoringCategory`); `thresholds := []`
models an absent threshold list (both yield the same levels). -/
structure ScoringCategory where
  id : String
  name : String := ""
  maxScore : Option Int := none
  thresholds : List ScoreThreshold := []
deriving DecidableEq

/-- Ground-zero detection parameters (types.ts `GroundZeroConfig`). -/
structure GroundZeroConfig where
  minCategories : Nat
  maxSpread : Int
  minScore : Int
deriving DecidableEq

/-- Scoring strategies (types.ts `ScoringType`). -/
inductive ScoringType where
  | highestWins | threshold | weightedAverage | composite | spectrum
deriving DecidableEq

/-- A scoring configuration (types.ts `ScoringConfig`). -/
structure ScoringConfig where
  type : ScoringType
  categories : List ScoringCategory
  groundZeroThreshold : Option GroundZeroConfig := none
deriving DecidableEq

/-- The per-category score map as an insertion-ordered association list. -/
abbrev CategoryScores := List (String × Int)

/-- A result dimension (types.ts `ResultDimension`); percentage and level
are absent on the all-zero fallback result. -/
structure ResultDimension where
  category : String
  score : Int
  percentage : Option Rat := none
  level : Option String := none
deriving DecidableEq

/-- A per-answer contribution record (types.ts `AnswerContribution`). -/
structure AnswerContribution where
  questionId : String
  questionLabel : String
  answerText : String
  categories : List ScoreContribution
deriving DecidableEq

/-- The final quiz result (types.ts `QuizResult`). -/
structure QuizResult where
  resultKey : String
  primary : ResultDimension
  secondary : Option ResultDimension
  scores : CategoryScores
  contributions : List AnswerContribution
  isGroundZero : Bool
  timestamp : Nat
  metadata : List (String × String)
deriving DecidableEq

/-- `scores[cat] || 0`: read a category score, defaulting to 0. -/
def getScore (scores : CategoryScores) (cat : String) : Int :=
  match scores.find? (fun p => p.1 == cat) with
  | some p => p.2
  | none => 0

/-- `scores[cat] = v`: assign a key in a JavaScript object map — update in
place if present, append otherwise. -/
def setScore (scores : CategoryScores) (cat : String) (v : Int) : CategoryScores :=
  match scores with
  | [] => [(cat, v)]
  | (c, s) :: rest =>
      if c = cat then (c, v) :: rest else (c, s) :: setScore rest cat v

/-- `scores[cat] = (scores[cat] || 0) + v`. -/
def addScore (scores : CategoryScores) (cat : String) (v : Int) : CategoryScores :=
  match scores with
  | [] => [(cat, v)]
  | (c, s) :: rest =>
      if c = cat then (c, s + v) :: rest else (c, s) :: addScore rest cat v

/-- `opt.letter === answerValue`, where `letter` may be absent: two
`undefined` sides are strictly equal in JavaScript. -/
def letterMatches (letter : Option String) (v : JVal) : Bool :=
  match letter, v with
  | some l, .str s => l == s
  | none, .undefV => true
  | _, _ => false

/-- `opt.value === answerValue` for an optional string-or-number value. -/
def primMatches (value : Option PrimValue) (v : JVal) : Bool :=
  match value, v with
  | some (.str t), .str s => t == s
  | some (.num m), .num n => m == n
  | none, .undefV => true
  | _, _ => false

/-- The option lookup of the scoring switch:
`options.find(opt => opt.letter === v || opt.value === v)`. -/
def findOption (options : List ChoiceOption) (v : JVal) : Option ChoiceOption :=
  options.find? (fun opt => letterMatches opt.letter v || primMatches opt.value v)

/-- `getScoreContributionsFromAnswer` (part_000 lines 326-404). -/
def contributionsOf (q : Question) (v : JVal) : List ScoreContribution :=
  match q.qtype with
  | .singleChoice | .scenario =>
      match findOption q.options v with
      | none => []
      | some opt =>
          opt.scores ++
          (match opt.war with | some w => [⟨w, 1, none⟩] | none => []) ++
          (match opt.mask with | some m => [⟨m, 1, none⟩] | none => []) ++
          (match opt.archetype with | some a => [⟨a, 1, none⟩] | none => [])
  | .binary =>
      let score : Int := if v = .num (q.positiveValue.getD 1) then 1 else 0
      match q.scoringCategory with
      | some cat => if 0 < score then [⟨cat, score, none⟩] else []
      | none => []
  | .likert =>
      let base : Int := match v with | .num n => n | _ => 0
      let score := if q.reverseCoded then q.scalePoints - base + 1 else base
      match q.scoringCategory with
      | some cat => [⟨cat, score, none⟩]
      | none => []
  | .multiChoice =>
      let values : List JVal :=
        match v with
        | .strs l => l.map JVal.str
        | .nums l => l.map JVal.num
        | w => [w]
      values.foldl (fun acc val =>
        match findOption q.options val with
        | some opt => acc ++ opt.scores
        | none => acc) []
  | .slider =>
      match q.scoringCategory, v with
      | some cat, .num n => [⟨cat, n, none⟩]
      | _, _ => []
  | _ => []

/-- `calculateCategoryScores` (part_000 lines 300-321): initialize every
configured category to 0, then accumulate `value * (weight ?? 1)` for each
stored answer whose question still exists. -/
def calculateCategoryScores (cfg : ScoringConfig) (questions : List Question)
    (st : QuizState) : CategoryScores :=
  let init := cfg.categories.foldl (fun acc c => setScore acc c.id 0) []
  st.answers.foldl (fun acc a =>
    match questions.find? (fun q => q.id == a.questionId) with
    | none => acc
    | some q =>
        (contributionsOf q a.value).foldl
          (fun acc2 contrib =>
            addScore acc2 contrib.category (contrib.value * contrib.weight.getD 1))
          acc) init

/-- `s₁ || s₂` on strings: an empty string is falsy. -/
def jsOrStr (s fallback : String) : String :=
  if s = "" then fallback else s

/-- `o || s` for an optional string with an empty-string-falsy default. -/
def jsOrOptStr (o : Option String) (fallback : String) : String :=
  match o with
  | some s => jsOrStr s fallback
  | none => fallback

/-- `getAnswerText` (part_000 lines 435-450). -/
def getAnswerText (q : Question) (v : JVal) : String :=
  match q.qtype with
  | .singleChoice | .scenario =>
      match findOption q.options v with
      | some opt => jsOrStr opt.text (jsStr v)
      | none => jsStr v
  | .binary =>
      if v = .num (q.positiveValue.getD 1) then jsOrOptStr q.positiveLabel "Yes"
      else jsOrOptStr q.negativeLabel "No"
  | _ => jsStr v

/-- `getAnswerContributions` (part_000 lines 409-430): answers with zero
contributions are omitted. -/
def getAnswerContributions (questions : List Question) (st : QuizState) :
    List AnswerContribution :=
  st.answers.foldl (fun acc a =>
    match questions.find? (fun q => q.id == a.questionId) with
    | none => acc
    | some q =>
        let contribs := contributionsOf q a.value
        if contribs.isEmpty then acc
        else acc ++ [⟨a.questionId, jsOrOptStr q.label q.id,
                      getAnswerText q a.value, contribs⟩]) []

/-- Stable descending insertion by score: a new entry goes after every
earlier entry with an equal or larger score, modeling the stable
`sort((a, b) => b[1] - a[1])` of the source. -/
def insertByDesc (x : String × Int) : List (String × Int) → List (String × Int)
  | [] => [x]
  | y :: ys => if y.2 < x.2 then x :: y :: ys else y :: insertByDesc x ys

/-- Stable descending sort by score. -/
def sortDesc (l : List (String × Int)) : List (String × Int) :=
  l.foldl (fun acc x => insertByDesc x acc) []

/-- `getScoreLevel` (part_000 lines 525-535). -/
def getScoreLevel (cfg : ScoringConfig) (cat : String) (score : Int) : String :=
  match cfg.categories.find? (fun c => c.id == cat) with
  | none => "unknown"
  | some c =>
      match c.thresholds.find? (fun t => t.min ≤ score && score ≤ t.max) with
      | some t => t.level
      | none => "unknown"

/-- The innermost accumulation of `estimateMaxScore` (part_000 lines
507-511): add `value * (weight ?? 1)` for each explicit contribution to the
category. -/
def scoreStep (catId : String) (a : Int) (sc : ScoreContribution) : Int :=
  if sc.category = catId then a + sc.value * sc.weight.getD 1 else a

/-- The per-option accumulation of `estimateMaxScore` (part_000 lines
505-516): the explicit contributions, then 1 more when the `war` or `mask`
tag matches the category. -/
def optionStep (catId : String) (acc : Int) (opt : ChoiceOption) : Int :=
  let acc2 := opt.scores.foldl (scoreStep catId) acc
  if opt.war = some catId ∨ opt.mask = some catId then acc2 + 1 else acc2

/-- The per-question accumulation of `estimateMaxScore` (part_000 lines
502-518): only single-choice and scenario questions contribute. -/
def questionStep (catId : String) (acc : Int) (q : Question) : Int :=
  if q.qtype = .singleChoice ∨ q.qtype = .scenario then
    q.options.foldl (optionStep catId) acc
  else acc

/-- `estimateMaxScore` (part_000 lines 500-520): a single accumulator walks
only single-choice and scenario questions, adding explicit contributions
and 1 for a matching `war` or `mask` tag; `max || 10` falls back on 0. -/
def estimateMaxScore (questions : List Question) (catId : String) : Int :=
  let m := questions.foldl (questionStep catId) 0
  if m = 0 then 10 else m

/-- `category?.maxScore || this.estimateMaxScore(key)`: a configured 0 is
falsy, so it also falls back to the estimate. -/
def maxScoreFor (cfg : ScoringConfig) (questions : List Question) (cat : String) : Int :=
  match (cfg.categories.find? (fun c => c.id == cat)).bind (fun c => c.maxScore) with
  | some m => if m = 0 then estimateMaxScore questions cat else m
  | none => estimateMaxScore questions cat

/-- Build one result dimension (the body shared by primary and secondary in
`determinePrimaryResult`). -/
def mkDimension (cfg : ScoringConfig) (questions : List Question)
    (cat : String) (score : Int) : ResultDimension :=
  let maxScore := maxScoreFor cfg questions cat
  { category := cat
    score := score
    percentage := some (if 0 < maxScore then (score : Rat) / (maxScore : Rat) * 100 else 0)
    level := some (getScoreLevel cfg cat score) }

/-- `determinePrimaryResult` (part_000 lines 455-495). -/
def determinePrimaryResult (cfg : ScoringConfig) (questions : List Question)
    (scores : CategoryScores) : ResultDimension × Option ResultDimension :=
  let sorted := sortDesc (scores.filter (fun p => 0 < p.2))
  match sorted with
  | [] => (⟨"unknown", 0, none, none⟩, none)
  | (pk, ps) :: rest =>
      let primary := mkDimension cfg questions pk ps
      match rest with
      | [] => (primary, none)
      | (sk, ss) :: _ => (primary, some (mkDimension cfg questions sk ss))

/-- The fixed war reference set of `checkGroundZero` and `buildResultKey`. -/
def warCategories : List String :=
  ["abandonment", "exposure", "entrapment", "erasure"]

/-- The fixed mask reference set of `buildResultKey`. -/
def maskCategories : List String :=
  ["flooded", "armored", "phantom", "analyzer"]

/-- `checkGroundZero` (part_000 lines 540-554) for a present config.  When
the qualifying list is empty (possible only with `minCategories = 0`), the
source computes `Math.max() - Math.min() = -Infinity ≤ maxSpread`, which is
true; the empty branch models that. -/
def checkGroundZeroWith (gz : GroundZeroConfig) (scores : CategoryScores) : Bool :=
  let warScores := (warCategories.map (fun w => getScore scores w)).filter
    (fun s => gz.minScore ≤ s)
  if warScores.length < gz.minCategories then false
  else
    match warScores with
    | [] => true
    | x :: xs => decide (xs.foldl max x - xs.foldl min x ≤ gz.maxSpread)

/-- `checkGroundZero` including the absent-config guard. -/
def checkGroundZero (cfg : ScoringConfig) (scores : CategoryScores) : Bool :=
  match cfg.groundZeroThreshold with
  | none => false
  | some gz => checkGroundZeroWith gz scores

/-- The accumulator step of `getTopFromList`: strictly-greater comparison
against the best score so far. -/
def topStep (scores : CategoryScores) (acc : Option String × Int) (cat : String) :
    Option String × Int :=
  let score := getScore scores cat
  if acc.2 < score then (some cat, score) else acc

/-- `getTopFromList` (part_000 lines 588-601): best score starts at -1, so a
zero-scoring category still wins over the initial state. -/
def getTopFromList (scores : CategoryScores) (cats : List String) : Option String :=
  (cats.foldl (topStep scores) (none, -1)).1

/-- The highest-wins key (the tail of `buildResultKey`). -/
def highestWinsKey (primary : ResultDimension) (secondary : Option ResultDimension) :
    String :=
  match secondary with
  | some s => primary.category ++ "-" ++ s.category
  | none => primary.category

/-- `buildResultKey` (part_000 lines 559-583). -/
def buildResultKey (cfg : ScoringConfig) (primary : ResultDimension)
    (secondary : Option ResultDimension) (scores : CategoryScores) : String :=
  let fallback := highestWinsKey primary secondary
  if cfg.type = ScoringType.composite then
    match getTopFromList scores warCategories, getTopFromList scores maskCategories with
    | some w, some m => w ++ "-" ++ m
    | _, _ => fallback
  else fallback

/-- `calculateResults` (part_000 lines 274-295); `now` is the clock value
read by `new Date()` when the result is stamped. -/
def calculateResults (cfg : ScoringConfig) (questions : List Question)
    (st : QuizState) (now : Nat) : QuizResult :=
  let scores := calculateCategoryScores cfg questions st
  let contributions := getAnswerContributions questions st
  let pr := determinePrimaryResult cfg questions scores
  let isGZ := checkGroundZero cfg scores
  let resultKey :=
    if isGZ then "ground-zero" else buildResultKey cfg pr.1 pr.2 scores
  { resultKey := resultKey
    primary := pr.1
    secondary := pr.2
    scores := scores
    contributions := contributions
    isGroundZero := isGZ
    timestamp := now
    metadata := st.metadata }

/-- The preset composite war/mask configuration (part_000 lines 734-751). -/
def WAR_MASK_SCORING : ScoringConfig :=
  { type := .composite
    categories :=
      [⟨"abandonment", "Abandonment", none, []⟩,
       ⟨"exposure", "Exposure", none, []⟩,
       ⟨"entrapment", "Entrapment", none, []⟩,
       ⟨"erasure", "Erasure", none, []⟩,
       ⟨"flooded", "Flooded", none, []⟩,
       ⟨"armored", "Armored", none, []⟩,
       ⟨"phantom", "Phantom", none, []⟩,
       ⟨"analyzer", "Analyzer", none, []⟩]
    groundZeroThreshold := some ⟨3, 2, 3⟩ }

-- ============================================================================
-- Quiz engine state machine (src/components/quiz/QuizEngine.ts)
-- ============================================================================

/-- The quiz definition fields the engine operations under proof read. -/
structure Quiz where
  id : String
  questions : List Question
  scoring : ScoringConfig

/-- The engine-owned data: the quiz, the (possibly shuffled) question order,
and the current state. -/
structure Engine where
  quiz : Quiz
  questionOrder : List Nat
  state : QuizState

/-- `getQuestion(index)` (QuizEngine.ts lines 109-112): a two-level lookup
through the order array, `null` when either level is out of bounds. -/
def getQuestion (e : Engine) (i : Nat) : Option Question :=
  match e.questionOrder.get? i with
  | some actual => e.quiz.questions.get? actual
  | none => none

/-- `getCurrentQuestion()` (QuizEngine.ts lines 101-104). -/
def getCurrentQuestion (e : Engine) : Option Question :=
  getQuestion e e.state.currentQuestionIndex

/-- The visibility test of the `next()` scan (QuizEngine.ts line 235):
`question && (!question.conditionalDisplay || evaluateConditions(...))`. -/
def visibleAt (e : Engine) (i : Nat) : Bool :=
  match getQuestion e i with
  | none => false
  | some q => visibleQn q e.state

/-- The forward scan of `next()` (QuizEngine.ts lines 232-239): the first
index at or after `i`, below the question-list length, holding a visible
question. -/
def findNextVisible (e : Engine) (i : Nat) : Option Nat :=
  if i < e.quiz.questions.length then
    if visibleAt e i then some i else findNextVisible e (i + 1)
  else none
termination_by e.quiz.questions.length - i
decreasing_by omega

/-- `next()` (QuizEngine.ts lines 225-254), as a pure transition returning
the boolean result and the engine after the call. -/
def next (e : Engine) : Bool × Engine :=
  match getCurrentQuestion e with
  | none => (false, e)
  | some _ =>
      match findNextVisible e (e.state.currentQuestionIndex + 1) with
      | none => (false, e)
      | some n => (true, { e with state := { e.state with currentQuestionIndex := n } })

/-- Assignment `this.state.answers[id] = answer` on the object map: replace
in place when the key exists, append otherwise. -/
def upsertAnswer : List QuizAnswer → QuizAnswer → List QuizAnswer
  | [], a => [a]
  | b :: bs, a =>
      if b.questionId = a.questionId then a :: bs else b :: upsertAnswer bs a

/-- `submitAnswer(value)` (QuizEngine.ts lines 181-220) as a pure transition;
`now` is the clock value stamped on a stored answer.  The event emission,
persistence snapshot and auto-advance timer are external side effects with
no influence on the returned validation result or the state. -/
def submitAnswer (e : Engine) (v : JVal) (now : Nat) : ValidationResult × Engine :=
  match getCurrentQuestion e with
  | none => (⟨false, [⟨"", "No current question", .requiredCode⟩]⟩, e)
  | some q =>
      let validation := validateAnswer q v
      if validation.isValid then
        (⟨true, []⟩,
         { e with state :=
            { e.state with answers := upsertAnswer e.state.answers ⟨q.id, v, now⟩ } })
      else (validation, e)

/-- The preset highest-wins archetype configuration (part_000 lines 753-763). -/
def ARCHETYPE_SCORING : ScoringConfig :=
  { type := .highestWins
    categories :=
      [⟨"fixer", "Fixer", none, []⟩,
       ⟨"vanisher", "Vanisher", none, []⟩,
       ⟨"analyzer", "Analyzer", none, []⟩,
       ⟨"warrior", "Warrior", none, []⟩,
       ⟨"chameleon", "Chameleon", none, []⟩,
       ⟨"performer", "Performer", none, []⟩]
    groundZeroThreshold := none }

-- ============================================================================
-- Concrete fixtures used by witnesses and counterexamples
-- ============================================================================

/-- A state with no stored answers. -/
def stEmpty : QuizState :=
  { quizId := "quiz", currentQuestionIndex := 0, answers := [] }

/-- A slider question crediting its numeric answer to one war category. -/
def sliderQn (i : String) (cat : String) : Question :=
  { id := i, qtype := .slider, scoringCategory := some cat,
    sliderMin := 0, sliderMax := 10 }

/-- One slider on the abandonment war, answered 5: masks all score 0. -/
def qAb : Question := sliderQn "w" "abandonment"

/-- The state answering `qAb` with 5. -/
def stAb : QuizState :=
  { quizId := "quiz", currentQuestionIndex := 0, answers := [⟨"w", .num 5, 0⟩] }

/-- Four war sliders for the ground-zero example of the claim. -/
def qsGZ : List Question :=
  [sliderQn "w1" "abandonment", sliderQn "w2" "exposure",
   sliderQn "w3" "entrapment", sliderQn "w4" "erasure"]

/-- Answers giving war scores abandonment 4, exposure 3, entrapment 3,
erasure 1. -/
def stGZ : QuizState :=
  { quizId := "quiz", currentQuestionIndex := 0,
    answers := [⟨"w1", .num 4, 0⟩, ⟨"w2", .num 3, 0⟩,
                ⟨"w3", .num 3, 0⟩, ⟨"w4", .num 1, 0⟩] }

/-- A multi-choice question whose only option contributes 5 to category x. -/
def qMC : Question :=
  { id := "m", qtype := .multiChoice,
    options := [{ text := "opt", value := some (.str "a"),
                  scores := [⟨"x", 5, none⟩] }] }

/-- The conditional gate of the visibility example:
question q1 equals the string yes. -/
def gateLogic : ConditionalLogic :=
  { conditions := [⟨"q1", .equals, .str "yes"⟩], operator := .andOp }

/-- A required question hidden behind `gateLogic`. -/
def qGated : Question :=
  { id := "q2", qtype := .singleChoice, conditionalDisplay := some gateLogic }

/-- A plain required question (the `required` flag absent defaults to
required). -/
def qReq : Question := { id := "r1", qtype := .singleChoice }

/-- An engine sitting on `qReq`, with nothing answered. -/
def eReq : Engine :=
  { quiz := { id := "quiz", questions := [qReq], scoring := ARCHETYPE_SCORING }
    questionOrder := [0]
    state := stEmpty }

-- ============================================================================
-- C1: determinism of calculateResults
-- ============================================================================

/-- C1 counterexample: the source stamps `timestamp: new Date()`
(part_000 line 292), so two calls on identical `(config, questions, state)`
at different clock readings produce different `QuizResult` values — the
claim that every field, including the timestamp, is byte-identical fails. -/
theorem c1_counterexample :
    calculateResults WAR_MASK_SCORING [] stEmpty 0 ≠
      calculateResults WAR_MASK_SCORING [] stEmpty 1 := by
  decide

/-- C1 (amended): two calls of `calculateResults` on identical
`(config, questions, state)` agree on every field of the result except the
timestamp, which reflects the clock at the moment of the call. -/
theorem c1_deterministic_except_timestamp (cfg : ScoringConfig)
    (questions : List Question) (st : QuizState) (n1 n2 : Nat) :
    (calculateResults cfg questions st n1).resultKey =
        (calculateResults cfg questions st n2).resultKey ∧
    (calculateResults cfg questions st n1).primary =
        (calculateResults cfg questions st n2).primary ∧
    (calculateResults cfg questions st n1).secondary =
        (calculateResults cfg questions st n2).secondary ∧
    (calculateResults cfg questions st n1).scores =
        (calculateResults cfg questions st n2).scores ∧
    (calculateResults cfg questions st n1).contributions =
        (calculateResults cfg questions st n2).contributions ∧
    (calculateResults cfg questions st n1).isGroundZero =
        (calculateResults cfg questions st n2).isGroundZero ∧
    (calculateResults cfg questions st n1).metadata =
        (calculateResults cfg questions st n2).metadata :=
  ⟨rfl, rfl, rfl, rfl, rfl, rfl, rfl⟩

-- ============================================================================
-- C6: submitAnswer on a failing value does not mutate state
-- ============================================================================

/-- C6: when the engine has a current question and the candidate value fails
validation, `submitAnswer` returns exactly the validation result and leaves
the engine — answers, cursor, metadata and timestamps — unchanged; as a
total Lean function it never throws. -/
theorem c6_submitAnswer_invalid_unchanged (e : Engine) (q : Question) (v : JVal)
    (now : Nat) (hq : getCurrentQuestion e = some q)
    (hv : (validateAnswer q v).isValid = false) :
    submitAnswer e v now = (validateAnswer q v, e) := by
  unfold submitAnswer
  rw [hq]
  simp [hv]

/-- C6 witness: submitting an empty value to the required question of
`eReq` fails with the `required` error and leaves the engine unchanged. -/
theorem c6_witness :
    submitAnswer eReq JVal.undefV 7 = (validateAnswer qReq JVal.undefV, eReq) :=
  c6_submitAnswer_invalid_unchanged eReq qReq JVal.undefV 7 rfl rfl

-- ============================================================================
-- C7: required/empty handling of validateAnswer
-- ============================================================================

/-- C7: on an empty value, a question whose `required` flag is not `false`
fails with exactly the single `required` error (no type-specific check
runs), and a question whose `required` flag is `false` succeeds with no
errors. -/
theorem c7_validateAnswer_empty (q : Question) (v : JVal)
    (he : isEmpty v = true) :
    (isRequired q = true →
      validateAnswer q v =
        ⟨false, [⟨q.id, "This question requires an answer", .requiredCode⟩]⟩) ∧
    (isRequired q = false → validateAnswer q v = ⟨true, []⟩) := by
  constructor
  · intro hr
    unfold validateAnswer
    simp [hr, he]
  · intro hr
    unfold validateAnswer
    simp [hr, he]

/-- C7 witness: the required question `qReq` rejects `undefined` with the
single `required` error. -/
theorem c7_witness :
    isEmpty JVal.undefV = true ∧
      validateAnswer qReq JVal.undefV =
        ⟨false, [⟨"r1", "This question requires an answer", .requiredCode⟩]⟩ :=
  ⟨rfl, (c7_validateAnswer_empty qReq JVal.undefV rfl).1 rfl⟩

-- ============================================================================
-- C10: calculateProgress with zero visible questions
-- ============================================================================

/-- C10: when conditional logic hides every question, `calculateProgress`
returns 100 through the explicit zero-visible guard, so the division by the
visible count is never performed with a zero denominator. -/
theorem c10_progress_all_hidden (questions : List Question) (st : QuizState)
    (h : (visibleList questions st).length = 0) :
    calculateProgress questions st = 100 := by
  unfold calculateProgress
  simp [h]

/-- C10 witness: a quiz whose only question is hidden behind an unanswered
gate reports 100 percent progress. -/
theorem c10_witness :
    (visibleList [qGated] stEmpty).length = 0 ∧
      calculateProgress [qGated] stEmpty = 100 :=
  ⟨rfl, c10_progress_all_hidden [qGated] stEmpty rfl⟩

-- ============================================================================
-- C8: condition evaluation against an absent answer
-- ============================================================================

/-- C8: with no stored answer for the referenced question (the answer value
reads as `undefined`), `equals`, `greater-than`, `less-than` and `in-range`
conditions evaluate false and `not-equals` evaluates true (the condition
value, typed `string | number | string[] | number[]`, is never undefined);
and the concrete gate of the claim hides its question without blocking the
completeness check. -/
theorem c8_condition_absent_answer (c : Condition) (st : QuizState)
    (h : lookupAnswer st c.questionId = none) :
    (c.operator = .equals → evaluateCondition c st = false) ∧
    (c.operator = .greaterThan → evaluateCondition c st = false) ∧
    (c.operator = .lessThan → evaluateCondition c st = false) ∧
    (c.operator = .inRange → evaluateCondition c st = false) ∧
    (c.operator = .notEquals → evaluateCondition c st = true) ∧
    (evaluateConditions gateLogic stEmpty = false ∧
      isQuizComplete [qGated] stEmpty = true) := by
  have hval : answerValueOf st c.questionId = .undefV := by
    unfold answerValueOf
    rw [h]
  refine ⟨?_, ?_, ?_, ?_, ?_, rfl, rfl⟩ <;>
    · intro hop
      unfold evaluateCondition
      rw [hop, hval]
      rcases c.value with s | n | l | l <;>
        first
        | rfl
        | (rcases l with _ | ⟨a, _ | ⟨b, _ | ⟨d, t⟩⟩⟩ <;> rfl)

/-- C8 witness: the gate condition of the claim, evaluated on a state with
no answer for q1, is false. -/
theorem c8_witness :
    evaluateCondition ⟨"q1", .equals, .str "yes"⟩ stEmpty = false :=
  (c8_condition_absent_answer ⟨"q1", .equals, .str "yes"⟩ stEmpty rfl).1 rfl

-- ============================================================================
-- C9: next() past the last visible question
-- ============================================================================

/-- The forward scan finds nothing when no index past the start is visible. -/
theorem findNextVisible_eq_none (e : Engine) :
    ∀ i, (∀ j, i ≤ j → visibleAt e j = false) → findNextVisible e i = none := by
  have key : ∀ n i, e.quiz.questions.length - i ≤ n →
      (∀ j, i ≤ j → visibleAt e j = false) → findNextVisible e i = none := by
    intro n
    induction n with
    | zero =>
        intro i hn h
        rw [findNextVisible]
        have hlt : ¬ i < e.quiz.questions.length := by omega
        simp [hlt]
    | succ n ih =>
        intro i hn h
        rw [findNextVisible]
        by_cases hlt : i < e.quiz.questions.length
        · simp [hlt, h i le_rfl]
          exact ih (i + 1) (by omega) (fun j hj => h j (by omega))
        · simp [hlt]
  exact fun i h => key (e.quiz.questions.length - i) i le_rfl h

/-- C9: when no visible question remains after the current cursor position,
`next()` returns false and leaves the engine unchanged, so an immediately
repeated call returns the same result on the same state. -/
theorem c9_next_no_more_questions (e : Engine)
    (h : ∀ j, e.state.currentQuestionIndex < j → visibleAt e j = false) :
    next e = (false, e) ∧ next (next e).2 = (false, e) := by
  have hfind : findNextVisible e (e.state.currentQuestionIndex + 1) = none :=
    findNextVisible_eq_none e _ (fun j hj => h j (by omega))
  have h1 : next e = (false, e) := by
    unfold next
    cases hq : getCurrentQuestion e with
    | none => rfl
    | some q => rw [hfind]
  refine ⟨h1, ?_⟩
  rw [h1]
  exact h1

/-- C9 witness: an engine on the only question of a one-question quiz —
calling next twice keeps returning false on the unchanged engine. -/
theorem c9_witness :
    next eReq = (false, eReq) ∧ next (next eReq).2 = (false, eReq) :=
  c9_next_no_more_questions eReq
    (fun j hj =>
      match j, hj with
      | 0, hj => absurd hj (by decide)
      | n + 1, _ => rfl)

-- ============================================================================
-- C4: ground-zero detection
-- ============================================================================

/-- The qualifying war scores of the ground-zero check: the scores of the
four fixed war categories that are at or above `minScore`. -/
def qualifyingWarScores (gz : GroundZeroConfig) (scores : CategoryScores) : List Int :=
  (warCategories.map (fun w => getScore scores w)).filter (fun s => gz.minScore ≤ s)

/-- Maximum of a score list (0 on the empty list, never reached below). -/
def listMaxD : List Int → Int
  | [] => 0
  | x :: xs => xs.foldl max x

/-- Minimum of a score list (0 on the empty list, never reached below). -/
def listMinD : List Int → Int
  | [] => 0
  | x :: xs => xs.foldl min x

/-- Max-minus-min spread of a score list. -/
def spreadOf (l : List Int) : Int := listMaxD l - listMinD l

/-- C4: with a ground-zero config present (and a positive `minCategories`,
as in every configuration of the repository), the flag is true exactly when
at least `minCategories` of the four war categories score at or above
`minScore` and the spread among the qualifying scores is at most
`maxSpread`; in particular the war scores 4, 3, 3, 1 under the preset
config give a ground-zero result with key ground-zero. -/
theorem c4_ground_zero (cfg : ScoringConfig) (gz : GroundZeroConfig)
    (scores : CategoryScores) (hcfg : cfg.groundZeroThreshold = some gz)
    (hmin : 0 < gz.minCategories) :
    (checkGroundZero cfg scores = true ↔
      gz.minCategories ≤ (qualifyingWarScores gz scores).length ∧
        spreadOf (qualifyingWarScores gz scores) ≤ gz.maxSpread) ∧
    ((calculateResults WAR_MASK_SCORING qsGZ stGZ 0).isGroundZero = true ∧
      (calculateResults WAR_MASK_SCORING qsGZ stGZ 0).resultKey = "ground-zero") := by
  refine ⟨?_, by decide, by decide⟩
  have hred : checkGroundZero cfg scores = checkGroundZeroWith gz scores := by
    unfold checkGroundZero
    rw [hcfg]
  rw [hred]
  have hq : ((warCategories.map (fun w => getScore scores w)).filter
      (fun s => decide (gz.minScore ≤ s))) = qualifyingWarScores gz scores := rfl
  unfold checkGroundZeroWith
  rw [hq]
  by_cases hlen : (qualifyingWarScores gz scores).length < gz.minCategories
  · rw [if_pos hlen]
    constructor
    · intro hfalse
      exact absurd hfalse (by simp)
    · intro hrhs
      omega
  · rw [if_neg hlen]
    cases hql : qualifyingWarScores gz scores with
    | nil =>
        rw [hql] at hlen
        simp at hlen
        omega
    | cons x xs =>
        rw [hql] at hlen
        simp only [spreadOf, listMaxD, listMinD]
        constructor
        · intro hd
          refine ⟨by simp at hlen ⊢; omega, ?_⟩
          simpa using hd
        · intro hrhs
          simpa using hrhs.2

/-- C4 witness: the iff instantiated at the war scores of the claim
(abandonment 4, exposure 3, entrapment 3, erasure 1) under the preset
config with minCategories 3, maxSpread 2, minScore 3. -/
theorem c4_witness :
    checkGroundZero WAR_MASK_SCORING
        [("abandonment", 4), ("exposure", 3), ("entrapment", 3), ("erasure", 1)] = true ↔
      (3 : Nat) ≤ (qualifyingWarScores ⟨3, 2, 3⟩
          [("abandonment", 4), ("exposure", 3), ("entrapment", 3), ("erasure", 1)]).length ∧
        spreadOf (qualifyingWarScores ⟨3, 2, 3⟩
          [("abandonment", 4), ("exposure", 3), ("entrapment", 3), ("erasure", 1)]) ≤ 2 :=
  (c4_ground_zero WAR_MASK_SCORING ⟨3, 2, 3⟩
    [("abandonment", 4), ("exposure", 3), ("entrapment", 3), ("erasure", 1)]
    rfl (by decide)).1

-- ============================================================================
-- C2: calculateResults on a state with no answers
-- ============================================================================

/-- `setScore` with value 0 preserves an all-zero score map. -/
theorem setScore_zero_allZero (l : List (String × Int)) (cat : String)
    (h : ∀ p ∈ l, p.2 = 0) : ∀ p ∈ setScore l cat 0, p.2 = 0 := by
  induction l with
  | nil =>
      intro p hp
      simp [setScore] at hp
      rw [hp]
  | cons q rest ih =>
      intro p hp
      rw [show setScore (q :: rest) cat 0 =
          (if q.1 = cat then (q.1, 0) :: rest
           else (q.1, q.2) :: setScore rest cat 0) from rfl] at hp
      by_cases hc : q.1 = cat
      · rw [if_pos hc] at hp
        rcases List.mem_cons.mp hp with hh | ht
        · rw [hh]
        · exact h p (List.mem_cons_of_mem q ht)
      · rw [if_neg hc] at hp
        rcases List.mem_cons.mp hp with hh | ht
        · rw [hh]
          exact h q (List.mem_cons_self q rest)
        · exact ih (fun r hr => h r (List.mem_cons_of_mem q hr)) p ht

/-- The category-initialization fold produces an all-zero score map. -/
theorem initScores_allZero (cats : List ScoringCategory) :
    ∀ acc, (∀ p ∈ acc, p.2 = 0) →
      ∀ p ∈ cats.foldl (fun acc c => setScore acc c.id 0) acc, p.2 = 0 := by
  induction cats with
  | nil =>
      intro acc h p hp
      exact h p hp
  | cons c rest ih =>
      intro acc h p hp
      exact ih (setScore acc c.id 0) (setScore_zero_allZero acc c.id h) p hp

/-- Reading any category from an all-zero score map gives 0. -/
theorem getScore_of_allZero (l : CategoryScores) (cat : String)
    (h : ∀ p ∈ l, p.2 = 0) : getScore l cat = 0 := by
  unfold getScore
  cases hf : l.find? (fun p => p.1 == cat) with
  | none => rfl
  | some p => exact h p (List.mem_of_find?_eq_some hf)

/-- On a state with no answers, the computed score map is the all-zero
initialization over the configured categories. -/
theorem calculateCategoryScores_empty (cfg : ScoringConfig)
    (questions : List Question) (st : QuizState) (hans : st.answers = []) :
    calculateCategoryScores cfg questions st =
      cfg.categories.foldl (fun acc c => setScore acc c.id 0) [] := by
  unfold calculateCategoryScores
  rw [hans]
  rfl

/-- C2 counterexample: on the preset composite configuration, scoring an
empty state yields the key abandonment-flooded (a zero score still beats
the initial best score -1 in `getTopFromList`), not unknown. -/
theorem c2_counterexample :
    (calculateResults WAR_MASK_SCORING [] stEmpty 0).resultKey = "abandonment-flooded" ∧
      "abandonment-flooded" ≠ "unknown" := by
  decide

/-- C2 (amended): on a state with no answers, `calculateResults` — a total
function, hence never throwing — scores every configured category 0; and
when the scoring type is not composite and any ground-zero threshold has a
positive minScore and positive minCategories, the result key is unknown.
(A composite configuration instead keys the first war and mask categories,
and a degenerate threshold can key ground-zero.) -/
theorem c2_empty_answers (cfg : ScoringConfig) (questions : List Question)
    (st : QuizState) (now : Nat) (hans : st.answers = [])
    (htype : cfg.type ≠ .composite)
    (hgz : ∀ gz, cfg.groundZeroThreshold = some gz →
      0 < gz.minScore ∧ 0 < gz.minCategories) :
    (∀ c ∈ cfg.categories,
      getScore (calculateResults cfg questions st now).scores c.id = 0) ∧
    (calculateResults cfg questions st now).resultKey = "unknown" := by
  have hscores : (calculateResults cfg questions st now).scores =
      cfg.categories.foldl (fun acc c => setScore acc c.id 0) [] :=
    calculateCategoryScores_empty cfg questions st hans
  have hzero : ∀ p ∈ (calculateResults cfg questions st now).scores, p.2 = 0 := by
    rw [hscores]
    exact initScores_allZero cfg.categories [] (by intro p hp; simp at hp)
  refine ⟨fun c _ => getScore_of_allZero _ c.id hzero, ?_⟩
  have hzero2 : ∀ p ∈ calculateCategoryScores cfg questions st, p.2 = 0 := hzero
  have hgzfalse : checkGroundZero cfg (calculateCategoryScores cfg questions st) = false := by
    cases hc : cfg.groundZeroThreshold with
    | none =>
        unfold checkGroundZero
        rw [hc]
    | some gz =>
        obtain ⟨hms, hmc⟩ := hgz gz hc
        have hred : checkGroundZero cfg (calculateCategoryScores cfg questions st) =
            checkGroundZeroWith gz (calculateCategoryScores cfg questions st) := by
          unfold checkGroundZero
          rw [hc]
        rw [hred]
        unfold checkGroundZeroWith
        have hmap : warCategories.map
            (fun w => getScore (calculateCategoryScores cfg questions st) w) =
            [0, 0, 0, 0] := by
          simp [warCategories, getScore_of_allZero _ _ hzero2]
        rw [hmap]
        have hfil : ([0, 0, 0, 0] : List Int).filter (fun s => decide (gz.minScore ≤ s)) = [] := by
          have : ¬ (gz.minScore ≤ (0 : Int)) := by omega
          simp [List.filter, this]
        rw [hfil]
        simp [hmc]
  have hfilterpos : (calculateCategoryScores cfg questions st).filter
      (fun p => decide (0 < p.2)) = [] := by
    rw [List.filter_eq_nil_iff]
    intro p hp
    have := hzero2 p hp
    simp [this]
  have hprim : determinePrimaryResult cfg questions
      (calculateCategoryScores cfg questions st) =
      (⟨"unknown", 0, none, none⟩, none) := by
    unfold determinePrimaryResult
    rw [hfilterpos]
    rfl
  show (if checkGroundZero cfg (calculateCategoryScores cfg questions st) then "ground-zero"
    else buildResultKey cfg
      (determinePrimaryResult cfg questions (calculateCategoryScores cfg questions st)).1
      (determinePrimaryResult cfg questions (calculateCategoryScores cfg questions st)).2
      (calculateCategoryScores cfg questions st)) = "unknown"
  rw [hgzfalse, hprim]
  simp [buildResultKey, highestWinsKey, htype]

/-- C2 witness: the amended statement instantiated on the preset
highest-wins archetype configuration with an empty state. -/
theorem c2_witness :
    (calculateResults ARCHETYPE_SCORING [] stEmpty 0).resultKey = "unknown" :=
  (c2_empty_answers ARCHETYPE_SCORING [] stEmpty 0 rfl (by decide)
    (fun gz h => nomatch h)).2

-- ============================================================================
-- C5: the estimated max score
-- ============================================================================

/-- The contribution one explicit score entry can produce toward a
category: `value * (weight ?? 1)` when the category matches, else 0. -/
def contribFor (catId : String) (sc : ScoreContribution) : Int :=
  if sc.category = catId then sc.value * sc.weight.getD 1 else 0

/-- The total explicit contribution of one option toward a category. -/
def optionScoresSum (catId : String) (opt : ChoiceOption) : Int :=
  (opt.scores.map (contribFor catId)).sum

/-- What one option adds in the estimate: the explicit contributions plus a
single point when the `war` or `mask` tag matches. -/
def optionPossible (catId : String) (opt : ChoiceOption) : Int :=
  optionScoresSum catId opt +
    (if opt.war = some catId ∨ opt.mask = some catId then 1 else 0)

/-- Declarative sum of the estimate over the single-choice and scenario
questions only. -/
def singleScenarioPossibleSum (questions : List Question) (catId : String) : Int :=
  ((questions.filter
      (fun q => decide (q.qtype = .singleChoice ∨ q.qtype = .scenario))).map
    (fun q => (q.options.map (optionPossible catId)).sum)).sum

/-- What one option can actually contribute through the scoring rules of
`getScoreContributionsFromAnswer` when selected on a single-choice or
scenario question: explicit scores plus 1 for each of the `war`, `mask`
and `archetype` tags. -/
def optionPossibleFull (catId : String) (opt : ChoiceOption) : Int :=
  optionScoresSum catId opt +
    (if opt.war = some catId then 1 else 0) +
    (if opt.mask = some catId then 1 else 0) +
    (if opt.archetype = some catId then 1 else 0)

/-- The maximum the claim describes, following its words: the sum of every
possible contribution any option of any question in the quiz could produce
toward the category (options contribute through single-choice, scenario and
multi-choice scoring; multi-choice uses explicit scores only). -/
def specPossibleMaxScore (questions : List Question) (catId : String) : Int :=
  (questions.map (fun q =>
    match q.qtype with
    | .singleChoice | .scenario => (q.options.map (optionPossibleFull catId)).sum
    | .multiChoice => (q.options.map (optionScoresSum catId)).sum
    | _ => 0)).sum

/-- The innermost estimate fold is the declarative per-entry sum. -/
theorem scoreStep_foldl (catId : String) (l : List ScoreContribution) :
    ∀ a : Int, l.foldl (scoreStep catId) a = a + (l.map (contribFor catId)).sum := by
  induction l with
  | nil => intro a; simp
  | cons c cs ih =>
      intro a
      rw [List.foldl_cons, ih, List.map_cons, List.sum_cons]
      unfold scoreStep contribFor
      by_cases h : c.category = catId
      · rw [if_pos h, if_pos h]
        ring
      · rw [if_neg h, if_neg h]
        ring

/-- The per-option estimate fold is the declarative per-option sum. -/
theorem optionStep_foldl (catId : String) (l : List ChoiceOption) :
    ∀ a : Int, l.foldl (optionStep catId) a = a + (l.map (optionPossible catId)).sum := by
  induction l with
  | nil => intro a; simp
  | cons o os ih =>
      intro a
      rw [List.foldl_cons, ih, List.map_cons, List.sum_cons]
      unfold optionStep optionPossible optionScoresSum
      rw [scoreStep_foldl]
      by_cases h : o.war = some catId ∨ o.mask = some catId
      · rw [if_pos h, if_pos h]
        ring
      · rw [if_neg h, if_neg h]
        ring

/-- The per-question estimate fold is the declarative filtered sum. -/
theorem questionStep_foldl (catId : String) (l : List Question) :
    ∀ a : Int, l.foldl (questionStep catId) a = a + singleScenarioPossibleSum l catId := by
  induction l with
  | nil => intro a; simp [singleScenarioPossibleSum]
  | cons q qs ih =>
      intro a
      rw [List.foldl_cons, ih]
      by_cases h : q.qtype = .singleChoice ∨ q.qtype = .scenario
      · rw [show questionStep catId a q = q.options.foldl (optionStep catId) a from by
            unfold questionStep
            rw [if_pos h]]
        rw [optionStep_foldl]
        rw [show singleScenarioPossibleSum (q :: qs) catId =
            (q.options.map (optionPossible catId)).sum +
              singleScenarioPossibleSum qs catId from by
            unfold singleScenarioPossibleSum
            rw [List.filter_cons_of_pos (by simpa using h), List.map_cons, List.sum_cons]]
        ring
      · rw [show questionStep catId a q = a from by
            unfold questionStep
            rw [if_neg h]]
        rw [show singleScenarioPossibleSum (q :: qs) catId =
            singleScenarioPossibleSum qs catId from by
            unfold singleScenarioPossibleSum
            rw [List.filter_cons_of_neg (by simpa using h)]]

/-- C5 counterexample: a quiz whose only question is a multi-choice with an
option contributing 5 to category x.  The claim says the estimate equals
the sum of all possible option contributions (5), but the source walks only
single-choice and scenario questions, finds nothing, and falls back to 10. -/
theorem c5_counterexample :
    estimateMaxScore [qMC] "x" = 10 ∧ specPossibleMaxScore [qMC] "x" = 5 ∧
      (10 : Int) ≠ 5 := by
  decide

/-- C5 (amended): for a category without a configured maxScore, the
estimate equals the sum of possible contributions of options of
single-choice and scenario questions only (explicit scores plus one point
when the war or mask tag matches; archetype tags and other question types
are not counted), and equals 10 exactly when that restricted sum is 0 —
in particular when the category has no scoring options at all. -/
theorem c5_estimateMaxScore_eq (questions : List Question) (catId : String) :
    estimateMaxScore questions catId =
      if singleScenarioPossibleSum questions catId = 0 then 10
      else singleScenarioPossibleSum questions catId := by
  have h := questionStep_foldl catId questions 0
  rw [zero_add] at h
  show (if questions.foldl (questionStep catId) 0 = 0 then (10 : Int)
      else questions.foldl (questionStep catId) 0) = _
  rw [h]



-- ============================================================================
-- C3: composite result keys
-- ============================================================================

/-- `find?` agrees for predicates that agree on the members of the list. -/
theorem find?_congr_mem {α : Type} (p q : α → Bool) :
    ∀ (l : List α), (∀ x ∈ l, p x = q x) → l.find? p = l.find? q := by
  intro l
  induction l with
  | nil => intro _; rfl
  | cons a as ih =>
      intro h
      have ha := h a (List.mem_cons_self a as)
      by_cases hp : p a = true
      · rw [List.find?_cons_of_pos as hp, List.find?_cons_of_pos as (ha ▸ hp)]
      · rw [List.find?_cons_of_neg as hp,
          List.find?_cons_of_neg as (by rw [← ha]; exact hp)]
        exact ih (fun x hx => h x (List.mem_cons_of_mem a hx))

/-- A nonempty category list has a maximal-score member. -/
theorem exists_max_mem (scores : CategoryScores) :
    ∀ (cats : List String), cats ≠ [] →
      ∃ c ∈ cats, ∀ d ∈ cats, getScore scores d ≤ getScore scores c := by
  intro cats
  induction cats with
  | nil => intro h; exact absurd rfl h
  | cons c cs ih =>
      intro _
      by_cases hnil : cs = []
      · refine ⟨c, List.mem_cons_self c cs, ?_⟩
        intro d hd
        rcases List.mem_cons.mp hd with h | h
        · rw [h]
        · rw [hnil] at h
          simp at h
      · obtain ⟨m, hm, hmax⟩ := ih hnil
        by_cases hcm : getScore scores c ≤ getScore scores m
        · refine ⟨m, List.mem_cons_of_mem c hm, ?_⟩
          intro d hd
          rcases List.mem_cons.mp hd with h | h
          · rw [h]; exact hcm
          · exact hmax d h
        · refine ⟨c, List.mem_cons_self c cs, ?_⟩
          intro d hd
          rcases List.mem_cons.mp hd with h | h
          · rw [h]
          · exact le_trans (hmax d h) (by omega)

/-- Characterization of the strictly-greater top scan: starting from best
score `s`, the final top is the first category whose score beats `s` and is
at least every score in the list; when none exists the initial top
survives. -/
theorem foldl_topStep_eq (scores : CategoryScores) :
    ∀ (cats : List String) (t : Option String) (s : Int),
      (cats.foldl (topStep scores) (t, s)).1 =
        match cats.find? (fun c => decide (s < getScore scores c) &&
            cats.all (fun d => decide (getScore scores d ≤ getScore scores c))) with
        | some c => some c
        | none => t := by
  intro cats
  induction cats with
  | nil => intro t s; rfl
  | cons c cs ih =>
      intro t s
      rw [List.foldl_cons]
      by_cases hc : s < getScore scores c
      · rw [show topStep scores (t, s) c = (some c, getScore scores c) from by
            unfold topStep
            rw [if_pos hc]]
        rw [ih (some c) (getScore scores c)]
        by_cases hall : ∀ d ∈ cs, getScore scores d ≤ getScore scores c
        · have hP : (decide (s < getScore scores c) &&
              (c :: cs).all (fun d => decide (getScore scores d ≤ getScore scores c)))
                = true := by
            rw [Bool.and_eq_true]
            refine ⟨by simp [hc], ?_⟩
            rw [List.all_eq_true]
            intro d hd
            rcases List.mem_cons.mp hd with h | h
            · simp [h]
            · simpa using hall d h
          rw [List.find?_cons_of_pos cs hP]
          have hnone : cs.find? (fun e => decide (getScore scores c < getScore scores e) &&
              cs.all (fun d => decide (getScore scores d ≤ getScore scores e))) = none := by
            rw [List.find?_eq_none]
            intro x hx
            have hxc := hall x hx
            simp [show ¬ (getScore scores c < getScore scores x) from by omega]
          rw [hnone]
        · push_neg at hall
          obtain ⟨d, hd, hgt⟩ := hall
          have hP : ¬ ((decide (s < getScore scores c) &&
              (c :: cs).all (fun e => decide (getScore scores e ≤ getScore scores c)))
                = true) := by
            intro hcontra
            rw [Bool.and_eq_true] at hcontra
            have h3 := List.all_eq_true.mp hcontra.2 d (List.mem_cons_of_mem c hd)
            simp at h3
            omega
          rw [List.find?_cons_of_neg cs hP]
          have hcong : cs.find? (fun e => decide (getScore scores c < getScore scores e) &&
                cs.all (fun x => decide (getScore scores x ≤ getScore scores e))) =
              cs.find? (fun e => decide (s < getScore scores e) &&
                (c :: cs).all (fun x => decide (getScore scores x ≤ getScore scores e))) := by
            apply find?_congr_mem
            intro x hx
            by_cases hcx : cs.all (fun e => decide (getScore scores e ≤ getScore scores x)) = true
            · have hdx : getScore scores d ≤ getScore scores x := by
                have := List.all_eq_true.mp hcx d hd
                simpa using this
              simp [List.all_cons, hcx,
                show getScore scores c < getScore scores x from by omega,
                show s < getScore scores x from by omega,
                show getScore scores c ≤ getScore scores x from by omega]
            · have hcx2 : cs.all (fun e => decide (getScore scores e ≤ getScore scores x))
                  = false := by
                rcases Bool.eq_false_or_eq_true
                  (cs.all (fun e => decide (getScore scores e ≤ getScore scores x))) with h | h
                · exact absurd h hcx
                · exact h
              simp [List.all_cons, hcx2]
          rw [hcong]
          cases hf : cs.find? (fun e => decide (s < getScore scores e) &&
              (c :: cs).all (fun x => decide (getScore scores x ≤ getScore scores e))) with
          | some e => rfl
          | none =>
              exfalso
              have hnilcs : cs ≠ [] := List.ne_nil_of_mem hd
              obtain ⟨m, hm, hmax⟩ := exists_max_mem scores cs hnilcs
              have hdm : getScore scores d ≤ getScore scores m := hmax d hd
              have hcontra := List.find?_eq_none.mp hf m hm
              apply hcontra
              rw [Bool.and_eq_true]
              refine ⟨by simp; omega, ?_⟩
              rw [List.all_eq_true]
              intro x hx
              rcases List.mem_cons.mp hx with h | h
              · simp [h]; omega
              · simpa using hmax x h
      · rw [show topStep scores (t, s) c = (t, s) from by
            unfold topStep
            rw [if_neg hc]]
        rw [ih t s]
        rw [List.find?_cons_of_neg cs (by simp [hc])]
        have hcong : cs.find? (fun e => decide (s < getScore scores e) &&
              cs.all (fun x => decide (getScore scores x ≤ getScore scores e))) =
            cs.find? (fun e => decide (s < getScore scores e) &&
              (c :: cs).all (fun x => decide (getScore scores x ≤ getScore scores e))) := by
          apply find?_congr_mem
          intro x hx
          by_cases hsx : s < getScore scores x
          · simp [List.all_cons, hsx,
              show getScore scores c ≤ getScore scores x from by omega]
          · simp [hsx]
        rw [hcong]

/-- The top of a category list as the claim words it: the first category
(iteration order breaks ties) whose score is nonnegative and at least every
score in the list. -/
def specTopFromList (scores : CategoryScores) (cats : List String) : Option String :=
  cats.find? (fun c => decide (0 ≤ getScore scores c) &&
    cats.all (fun d => decide (getScore scores d ≤ getScore scores c)))

/-- The source scan equals the declarative first-maximum (its -1 starting
best score admits any score at or above 0). -/
theorem getTopFromList_eq_spec (scores : CategoryScores) (cats : List String) :
    getTopFromList scores cats = specTopFromList scores cats := by
  unfold getTopFromList specTopFromList
  rw [foldl_topStep_eq]
  have hcong : cats.find? (fun c => decide ((-1 : Int) < getScore scores c) &&
        cats.all (fun d => decide (getScore scores d ≤ getScore scores c))) =
      cats.find? (fun c => decide ((0 : Int) ≤ getScore scores c) &&
        cats.all (fun d => decide (getScore scores d ≤ getScore scores c))) := by
    apply find?_congr_mem
    intro x _
    by_cases h : (0 : Int) ≤ getScore scores x
    · simp [h, show (-1 : Int) < getScore scores x from by omega]
    · simp [h, show ¬ ((-1 : Int) < getScore scores x) from by omega]
  rw [hcong]
  cases cats.find? (fun c => decide ((0 : Int) ≤ getScore scores c) &&
      cats.all (fun d => decide (getScore scores d ≤ getScore scores c))) with
  | none => rfl
  | some c => rfl

/-- Every score of the listed categories is negative. -/
def allNegOn (scores : CategoryScores) (cats : List String) : Bool :=
  cats.all (fun c => decide (getScore scores c < 0))

/-- The declarative top is `none` exactly when every score in the list is
negative (below the -1 starting best of the source scan). -/
theorem specTop_none_iff (scores : CategoryScores) (cats : List String) :
    specTopFromList scores cats = none ↔ allNegOn scores cats = true := by
  unfold specTopFromList allNegOn
  rw [List.find?_eq_none, List.all_eq_true]
  constructor
  · intro h x hx
    simp only [decide_eq_true_eq]
    by_contra hneg
    have hx0 : 0 ≤ getScore scores x := by omega
    have hnil : cats ≠ [] := List.ne_nil_of_mem hx
    obtain ⟨m, hm, hmax⟩ := exists_max_mem scores cats hnil
    have h0m : 0 ≤ getScore scores m := le_trans hx0 (hmax x hx)
    have hcon := h m hm
    rw [Bool.and_eq_true] at hcon
    push_neg at hcon
    have hall : cats.all (fun d => decide (getScore scores d ≤ getScore scores m)) = true := by
      rw [List.all_eq_true]
      intro d hd
      simpa using hmax d hd
    exact hcon (by simpa using h0m) hall
  · intro h x hx
    have hneg := h x hx
    simp only [decide_eq_true_eq] at hneg
    intro hcontra
    rw [Bool.and_eq_true] at hcontra
    have h1 := hcontra.1
    simp at h1
    omega

/-- The composite key as the amended claim words it: join the declarative
war and mask tops, falling back to the highest-wins key when either list
has no category scoring at or above 0 (all negative). -/
def specCompositeKey (scores : CategoryScores) (primary : ResultDimension)
    (secondary : Option ResultDimension) : String :=
  match specTopFromList scores warCategories, specTopFromList scores maskCategories with
  | some w, some m => w ++ "-" ++ m
  | _, _ => highestWinsKey primary secondary

/-- Some listed category has a strictly positive score. -/
def anyPositive (scores : CategoryScores) (cats : List String) : Bool :=
  cats.any (fun c => decide (0 < getScore scores c))

/-- C3 counterexample: a composite quiz where only the war side scores
(abandonment 5, all masks 0).  The claim says the mask side has no positive
score so the key must fall through to highest-wins (abandonment alone), but
the source still picks the first zero-scoring mask and keys
abandonment-flooded. -/
theorem c3_counterexample :
    (calculateResults WAR_MASK_SCORING [qAb] stAb 0).resultKey = "abandonment-flooded" ∧
    anyPositive (calculateResults WAR_MASK_SCORING [qAb] stAb 0).scores
      maskCategories = false ∧
    (calculateResults WAR_MASK_SCORING [qAb] stAb 0).secondary = none ∧
    highestWinsKey (calculateResults WAR_MASK_SCORING [qAb] stAb 0).primary
      (calculateResults WAR_MASK_SCORING [qAb] stAb 0).secondary = "abandonment" ∧
    "abandonment-flooded" ≠ "abandonment" := by
  decide

/-- C3 (amended): for composite scoring the key joins the war and mask tops
picked by strictly-greater comparison with ties to iteration order (the
first category attaining the maximum), and falls through to the
highest-wins key only when a set has no category scoring 0 or more — that
is, when all its scores are negative; a set whose best score is 0 still
yields its first top. -/
theorem c3_composite_result_key (cfg : ScoringConfig) (primary : ResultDimension)
    (secondary : Option ResultDimension) (scores : CategoryScores)
    (h : cfg.type = .composite) :
    buildResultKey cfg primary secondary scores = specCompositeKey scores primary secondary ∧
    (specTopFromList scores warCategories = none ↔
      allNegOn scores warCategories = true) ∧
    (specTopFromList scores maskCategories = none ↔
      allNegOn scores maskCategories = true) := by
  refine ⟨?_, specTop_none_iff scores warCategories, specTop_none_iff scores maskCategories⟩
  unfold buildResultKey specCompositeKey
  rw [if_pos h, getTopFromList_eq_spec, getTopFromList_eq_spec]

/-- C3 witness: the amended statement instantiated on the preset composite
configuration at the counterexample scores. -/
theorem c3_witness :
    buildResultKey WAR_MASK_SCORING ⟨"abandonment", 5, none, none⟩ none
        [("abandonment", 5)] =
      specCompositeKey [("abandonment", 5)] ⟨"abandonment", 5, none, none⟩ none ∧
    (specTopFromList [("abandonment", 5)] warCategories = none ↔
      allNegOn [("abandonment", 5)] warCategories = true) ∧
    (specTopFromList [("abandonment", 5)] maskCategories = none ↔
      allNegOn [("abandonment", 5)] maskCategories = true) :=
  c3_composite_result_key WAR_MASK_SCORING ⟨"abandonment", 5, none, none⟩ none
    [("abandonment", 5)] rfl
